import Mathlib

/-!
Shallow embedding of `src/rabj/simple.py` (pyrabj), a thin client library for
a remote question/answer judgment service.  HTTP transport is a black box:
remote calls are modelled by explicit server-response parameters, and the
requests a method issues are returned as part of its result (an effect trace).
Python dictionaries are modelled as association lists, Python strings as
`List Char` where character-level slicing matters.
-/

/-- Kinds of Python exceptions raised by the code under study. -/
inductive PyErr where
  | typeError
  | valueError
  | keyError
  | assertionError
  | attributeError
deriving DecidableEq, Repr

/-- A coarse model of Python values as they appear in this module:
integers, strings, lists, dictionaries and None. -/
inductive PyVal where
  | int (n : Int)
  | str (s : String)
  | list (xs : List PyVal)
  | dict (d : List (String × PyVal))
  | pynone

/-- Python `int(v)`: integers pass through, strings are parsed (ValueError on
failure), other values raise TypeError. -/
def pyInt : PyVal → Except PyErr Int
  | PyVal.int n => Except.ok n
  | PyVal.str s =>
    match s.toInt? with
    | some n => Except.ok n
    | Option.none => Except.error PyErr.valueError
  | _ => Except.error PyErr.typeError

/-- `e.isOk`-style discriminator for `Except`. -/
def isOkE {ε α : Type} : Except ε α → Bool
  | Except.ok _ => true
  | Except.error _ => false

/-- Python dict assignment `d[k] = v` on an association-list model:
overwrite the first binding of `k`, else append. -/
def dictSet {α : Type} : List (String × α) → String → α → List (String × α)
  | [], k, v => [(k, v)]
  | kv :: rest, k, v => if kv.1 = k then (k, v) :: rest else kv :: dictSet rest k v

/-- Python `d.update(m)`: assign every binding of `m` into `d`, in order. -/
def dictUpdate {α : Type} (d m : List (String × α)) : List (String × α) :=
  m.foldl (fun acc kv => dictSet acc kv.1 kv.2) d

/-- Python `d[k]` lookup returning the first binding. -/
def dictGet {α : Type} : List (String × α) → String → Option α
  | [], _ => Option.none
  | kv :: rest, k => if kv.1 = k then some kv.2 else dictGet rest k

/-- Python truthiness of an optional string (`if since:`): None and the empty
string are falsy. -/
def pyTruthyStr : Option String → Bool
  | Option.none => false
  | some s => !s.isEmpty

/-- Python truthiness of an optional dict (`if not queue:`): None and the
empty dict are falsy. -/
def pyTruthyDict {α : Type} : Option (List (String × α)) → Bool
  | Option.none => false
  | some d => !d.isEmpty

/-- Python `s.endswith(suffix)` on the `List Char` model of strings. -/
def pyEndsWith (s suffix : List Char) : Bool :=
  suffix.isSuffixOf s

/-- Python slice `s[:-k]` on the `List Char` model of strings. -/
def pySliceDropRight (s : List Char) (k : Nat) : List Char :=
  s.take (s.length - k)

/-- `RabjServer.__init__` URL normalization: a url ending with the 12
characters of a slash-store suffix loses its last 11 characters, a url ending
with the 6 characters of a slash-rabj suffix loses its last 5 characters,
anything else is stored unchanged. -/
def normServerUrl (url : List Char) : List Char :=
  if pyEndsWith url (String.toList "/rabj/store/") then pySliceDropRight url 11
  else if pyEndsWith url (String.toList "/rabj/") then pySliceDropRight url 5
  else url

/-- The simplified status record built by `RabjQueue.status`. -/
structure SimpleStatus where
  judgments : Nat
  complete : Nat
  incomplete : Nat
  started : Nat
  questions : Nat
deriving DecidableEq, Repr

/-- The server response `result` of a remote status fetch: the raw `status`
dict, whose four counter fields may each be absent. -/
structure StatusResp where
  judgments : Option Nat
  complete : Option Nat
  wanting : Option Nat
  started : Option Nat
deriving DecidableEq, Repr

/-- The mutable state of a `RabjQueue` instance: the queue record snapshot,
the clamped worker count, and the memoized status cache pair. -/
structure RabjQueueState where
  queue : List (String × PyVal)
  threads : Nat
  statusFetched : Bool
  statusCache : Option SimpleStatus

/-- The source line assigning worker count in `RabjQueue.__init__`:
`self.threads = 2 if threads > 1 else 1`. -/
def clampThreads (threads : Nat) : Nat :=
  if threads > 1 then 2 else 1

/-- The `RabjQueue.parallel` property, which always returns False. -/
def RabjQueue.parallel (_st : RabjQueueState) : Bool :=
  false

/-- `RabjQueue._get`: dispatch a list of fetch thunks through the parallel
helper when the parallel flag is set, otherwise run them sequentially in
order.  The external `api.parallel_fetch` helper is a parameter. -/
def RabjQueue._get {β : Type} (st : RabjQueueState)
    (parallel_fetch : List (Unit → β) → Nat → List β)
    (rabj_callables : List (Unit → β)) : List β :=
  if RabjQueue.parallel st = true then parallel_fetch rabj_callables st.threads
  else rabj_callables.map (fun rc => rc ())

/-- `RabjQueue.status`: build the simplified status record from the raw
server status dict; missing fields default to 0, the `wanting` field is
renamed `incomplete`, and `questions` is derived as complete plus
incomplete.  The method never consults the instance cache, so it is a
function of the server response alone. -/
def RabjQueue.status (qstat : StatusResp) : SimpleStatus :=
  let j := qstat.judgments.getD 0
  let c := qstat.complete.getD 0
  let i := qstat.wanting.getD 0
  let s := qstat.started.getD 0
  { judgments := j, complete := c, incomplete := i, started := s, questions := c + i }

/-- A call of the `status` method on a queue instance: it always issues a
remote fetch (third component `true`) and leaves the cached state
untouched. -/
def RabjQueue.statusCall (qstat : StatusResp) (st : RabjQueueState) :
    SimpleStatus × RabjQueueState × Bool :=
  (RabjQueue.status qstat, st, true)

/-- `RabjQueue.statusonce`: fetch the status on first use and memoize it;
afterwards return the cached value without fetching.  The third component
records whether this call issued a remote fetch. -/
def RabjQueue.statusonce (qstat : StatusResp) (st : RabjQueueState) :
    Option SimpleStatus × RabjQueueState × Bool :=
  if st.statusFetched = false then
    let s := RabjQueue.status qstat
    (some s, { st with statusFetched := true, statusCache := some s }, true)
  else
    (st.statusCache, st, false)

/-- `RabjQueue.resetstatus`: drop the memoized status. -/
def RabjQueue.resetstatus (st : RabjQueueState) : RabjQueueState :=
  { st with statusFetched := false, statusCache := Option.none }

/-- The `questions` property: `statusonce` then field selection. -/
def RabjQueue.questionsProp (qstat : StatusResp) (st : RabjQueueState) :
    Option Nat × RabjQueueState × Bool :=
  let r := RabjQueue.statusonce qstat st
  (r.1.map SimpleStatus.questions, r.2)

/-- The `complete` property: `statusonce` then field selection. -/
def RabjQueue.completeProp (qstat : StatusResp) (st : RabjQueueState) :
    Option Nat × RabjQueueState × Bool :=
  let r := RabjQueue.statusonce qstat st
  (r.1.map SimpleStatus.complete, r.2)

/-- The `incomplete` property: `statusonce` then field selection. -/
def RabjQueue.incompleteProp (qstat : StatusResp) (st : RabjQueueState) :
    Option Nat × RabjQueueState × Bool :=
  let r := RabjQueue.statusonce qstat st
  (r.1.map SimpleStatus.incomplete, r.2)

/-- The `started` property: `statusonce` then field selection. -/
def RabjQueue.startedProp (qstat : StatusResp) (st : RabjQueueState) :
    Option Nat × RabjQueueState × Bool :=
  let r := RabjQueue.statusonce qstat st
  (r.1.map SimpleStatus.started, r.2)

/-- The `judgments` property: `statusonce` then field selection. -/
def RabjQueue.judgmentsProp (qstat : StatusResp) (st : RabjQueueState) :
    Option Nat × RabjQueueState × Bool :=
  let r := RabjQueue.statusonce qstat st
  (r.1.map SimpleStatus.judgments, r.2)

/-- A question dict over value type `α` (association-list model). -/
abbrev Question (α : Type) := List (String × α)

/-- The question dict built by both `addone` and `addall`:
assertion and answerspace fields, then `update(meta)`. -/
def mkQuestion {α : Type} (assertion answerspace : α) (meta : List (String × α)) :
    Question α :=
  dictUpdate [("assertion", assertion), ("answerspace", answerspace)] meta

/-- `RabjQueue.addone`: post a single-question batch and return the list of
server-assigned records (`result` of the post).  The remote question-post is
modelled by the elementwise record map `srv`, a batch response being the
image of the posted payload. -/
def RabjQueue.addone {α β : Type} (srv : Question α → β)
    (assertion answerspace : α) (meta : List (String × α)) : List β :=
  [mkQuestion assertion answerspace meta].map srv

/-- The accumulation loop of `RabjQueue.addall`: build each question, append
it to the pending payload, and post the payload whenever it reaches
`pagesize` items.  Returns the accumulated records, the pending payload and
the list of posted batches (the request trace). -/
def RabjQueue.addallGo {α β : Type} (srv : Question α → β) (pagesize : Nat) :
    List (α × α × List (String × α)) → List β → List (Question α) →
    List (List (Question α)) →
    List β × List (Question α) × List (List (Question α))
  | [], added, payload, posts => (added, payload, posts)
  | t :: ts, added, payload, posts =>
    let q := mkQuestion t.1 t.2.1 t.2.2
    let payload2 := payload ++ [q]
    if payload2.length = pagesize then
      RabjQueue.addallGo srv pagesize ts (added ++ payload2.map srv) [] (posts ++ [payload2])
    else
      RabjQueue.addallGo srv pagesize ts added payload2 posts

/-- `RabjQueue.addall`: run the accumulation loop over the three-tuples, then
flush a non-empty trailing payload with one more post.  First component is
the returned record list, second the trace of posted batches. -/
def RabjQueue.addall {α β : Type} (srv : Question α → β)
    (three_tuples : List (α × α × List (String × α))) (pagesize : Nat) :
    List β × List (List (Question α)) :=
  match RabjQueue.addallGo srv pagesize three_tuples [] [] [] with
  | (added, payload, posts) =>
    if payload.length ≠ 0 then (added ++ payload.map srv, posts ++ [payload])
    else (added, posts)

/-- The wrapper object `RabjQuestion(record)` used by `getall`. -/
structure RabjQuestionH (α : Type) where
  question : α
deriving DecidableEq, Repr

/-- The `params` dict built by `getall`: `limit` and `offset` always present,
`since` present only when truthy, `judgments` and `body` present only when
true (a `false` field models an absent key). -/
structure GetParams where
  limit : Nat
  offset : Nat
  since : Option String
  judgments : Bool
  body : Bool
deriving DecidableEq, Repr

/-- One question-list GET issued by `getall`: the optional state path
segment and the params dict. -/
structure GetReq where
  state : Option String
  params : GetParams
deriving DecidableEq, Repr

/-- Build the `params` dict of `getall` for a given offset. -/
def mkGetParams (pagesize offset : Nat) (since : Option String)
    (judgments body : Bool) : GetParams :=
  { limit := pagesize, offset := offset,
    since := if pyTruthyStr since then since else Option.none,
    judgments := judgments, body := body }

/-- The `while True` pagination loop of `RabjQueue.getall`.  The remote
question store is modelled as the list `server` of matching records in server
order; a GET at a given offset returns the slice of at most `pagesize`
records starting there.  Each returned record is wrapped in a
`RabjQuestionH`; the loop stops on a page shorter than `pagesize`, otherwise
advances the offset by the limit.  `fuel` bounds the iteration count for
structural recursion and is chosen large enough by `getall`. -/
def RabjQueue.getallLoop {α : Type} (server : List α) (state : Option String)
    (since : Option String) (judgments body : Bool) (pagesize : Nat) :
    Nat → Nat → List GetReq × List (RabjQuestionH α)
  | 0, _ => ([], [])
  | Nat.succ fuel, offset =>
    let params := mkGetParams pagesize offset since judgments body
    let req : GetReq := { state := state, params := params }
    let page := (server.drop offset).take pagesize
    if page.length < pagesize then
      ([req], page.map RabjQuestionH.mk)
    else
      let rest := RabjQueue.getallLoop server state since judgments body pagesize fuel (offset + pagesize)
      (req :: rest.1, page.map RabjQuestionH.mk ++ rest.2)

/-- `RabjQueue.getall`: paginate from offset 0 until a short page.  Returns
the trace of issued requests and the wrapped questions, concatenated in page
order.  Parameter order follows the source signature
`(state, body, judgments, since, pagesize)`. -/
def RabjQueue.getall {α : Type} (server : List α) (state : Option String)
    (body judgments : Bool) (since : Option String) (pagesize : Nat) :
    List GetReq × List (RabjQuestionH α) :=
  RabjQueue.getallLoop server state since judgments body pagesize (server.length + 1) 0

/-- `RabjQueue.completed_questions`: delegates to `getall` with state fixed
to the complete segment.  Note the source forwards `since`, `judgments` and
`pagesize` but not `body`, so `getall` runs with its default body value. -/
def RabjQueue.completed_questions {α : Type} (server : List α)
    (body judgments : Bool) (since : Option String) (pagesize : Nat) :
    List GetReq × List (RabjQuestionH α) :=
  RabjQueue.getall server (some "complete") true judgments since pagesize

/-- `RabjQueue.incomplete_questions`: delegates to `getall` with state fixed
to the wanting segment.  As in the source, `body` is not forwarded. -/
def RabjQueue.incomplete_questions {α : Type} (server : List α)
    (body judgments : Bool) (since : Option String) (pagesize : Nat) :
    List GetReq × List (RabjQuestionH α) :=
  RabjQueue.getall server (some "wanting") true judgments since pagesize

/-- `RabjQueue.__init__`: asserts that exactly one of the two argument forms
is supplied (a queue record, xor the full server-url/id/access-key triple),
then fetches the record when none was passed (Python tests `not queue`, i.e.
truthiness).  `fetch` models `api.RabjCallable(server_url, access_key)[id].get()`;
reaching it with a missing argument is a collaborator-level failure. -/
def RabjQueue.init (fetch : String → String → String → List (String × PyVal))
    (queue : Option (List (String × PyVal)))
    (server_url id access_key : Option String) (threads : Nat) :
    Except PyErr RabjQueueState :=
  if Bool.xor queue.isSome (server_url.isSome && id.isSome && access_key.isSome) then
    match
      (if pyTruthyDict queue = false then
        match server_url, id, access_key with
        | some s, some i, some k => Except.ok (fetch s i k)
        | _, _, _ => Except.error PyErr.attributeError
      else Except.ok (queue.getD [])) with
    | Except.ok d =>
      Except.ok
        { queue := d, threads := clampThreads threads,
          statusFetched := false, statusCache := Option.none }
    | Except.error e => Except.error e
  else Except.error PyErr.assertionError

/-- `RabjQuestion.__init__`: asserts that exactly one of the two argument
forms is supplied (a question record, xor the server/id pair), then fetches
the record when none was passed.  Returns the wrapped record snapshot. -/
def RabjQuestion.init (fetch : String → String → List (String × PyVal))
    (question : Option (List (String × PyVal)))
    (server id : Option String) :
    Except PyErr (List (String × PyVal)) :=
  if Bool.xor question.isSome (server.isSome && id.isSome) then
    if pyTruthyDict question = false then
      match server, id with
      | some s, some i => Except.ok (fetch s i)
      | _, _ => Except.error PyErr.attributeError
    else Except.ok (question.getD [])
  else Except.error PyErr.assertionError

/-- `RabjServer.create_queue`: coerce `votes` with `int()` (raising before
any remote call on failure), default `tags` to an empty list, build the
queue dict, merge extra metadata, post it and wrap the server response in a
queue state.  First component is the trace of posted queue records,
`postQueue` models the remote queue-post response. -/
def RabjServer.create_queue
    (postQueue : List (String × PyVal) → List (String × PyVal))
    (name owner : PyVal) (votes : PyVal) (access_key : PyVal)
    (tags : Option PyVal) (meta : List (String × PyVal)) (threads : Nat) :
    List (List (String × PyVal)) × Except PyErr RabjQueueState :=
  match pyInt votes with
  | Except.error e => ([], Except.error e)
  | Except.ok n =>
    let tagsv := tags.getD (PyVal.list [])
    let queue : List (String × PyVal) :=
      [("name", name), ("owner", owner), ("access_key", access_key),
       ("votes", PyVal.int n), ("tags", tagsv)]
    let queue2 := dictUpdate queue meta
    ([queue2],
     Except.ok
       { queue := postQueue queue2, threads := clampThreads threads,
         statusFetched := false, statusCache := Option.none })

/-- The Python types relevant to `getone`-argument classification. -/
inductive PyType where
  | string
  | dictT
  | intT
  | noneT
  | listT
deriving DecidableEq, Repr

/-- The second argument of a Python `isinstance` call: a single type, a tuple
of types, or (erroneously) a list of types. -/
inductive IsinstanceClassinfo where
  | ty (t : PyType)
  | tupleTypes (ts : List PyType)
  | listTypes (ts : List PyType)

/-- Python 2 `isinstance`: a tuple of types checks membership, but a list of
types is not a valid classinfo and raises TypeError. -/
def pyIsinstance (vt : PyType) : IsinstanceClassinfo → Except PyErr Bool
  | IsinstanceClassinfo.ty t => Except.ok (vt == t)
  | IsinstanceClassinfo.tupleTypes ts => Except.ok (ts.contains vt)
  | IsinstanceClassinfo.listTypes _ => Except.error PyErr.typeError

/-- The `question` argument of `getone`: an id string or a record dict. -/
inductive GetoneArg where
  | str (id : String)
  | dict (record : List (String × String))

/-- The Python type of a `getone` argument. -/
def GetoneArg.typeOf : GetoneArg → PyType
  | GetoneArg.str _ => PyType.string
  | GetoneArg.dict _ => PyType.dictT

/-- Python subscript `v[k]` with a string key: dict lookup (KeyError when
missing), TypeError on non-dict values. -/
def pyGetItemVal : PyVal → String → Except PyErr PyVal
  | PyVal.dict d, k =>
    match dictGet d k with
    | some v => Except.ok v
    | Option.none => Except.error PyErr.keyError
  | _, _ => Except.error PyErr.typeError

/-- Python tuple unpacking `a, b = v`: a two-element list or two-character
string unpacks, other lengths raise ValueError, non-iterables TypeError. -/
def pyUnpack2 : PyVal → Except PyErr (PyVal × PyVal)
  | PyVal.list [a, b] => Except.ok (a, b)
  | PyVal.list _ => Except.error PyErr.valueError
  | PyVal.str s =>
    match s.toList with
    | [c1, c2] => Except.ok (PyVal.str (String.mk [c1]), PyVal.str (String.mk [c2]))
    | _ => Except.error PyErr.valueError
  | _ => Except.error PyErr.typeError

/-- `RabjQueue.getone`.  With a `question` argument the source runs
`assert isinstance(question, [basestring, dict])` — note the list literal —
before any fetch; only if that succeeded would it resolve the id and fetch
the nominated record (`fetch`).  With no argument it evaluates
`resp, question = self.queue.questions.get(limit=1)[0]['id']`: the get
returns a (response-metadata, result) pair, `[0]` selects the metadata
object (modelled by the collaborator-dependent value `respMeta`), which is
subscripted by the id key and then tuple-unpacked; the unpacked second
component is what gets wrapped. -/
def RabjQueue.getone (respMeta : PyVal) (fetch : String → PyVal)
    (question : Option GetoneArg) : Except PyErr PyVal :=
  match question with
  | some q =>
    match pyIsinstance q.typeOf (IsinstanceClassinfo.listTypes [PyType.string, PyType.dictT]) with
    | Except.error e => Except.error e
    | Except.ok true =>
      match q with
      | GetoneArg.dict d =>
        match dictGet d "id" with
        | some i => Except.ok (fetch i)
        | Option.none => Except.error PyErr.keyError
      | GetoneArg.str s => Except.ok (fetch s)
    | Except.ok false => Except.error PyErr.assertionError
  | Option.none =>
    match pyGetItemVal respMeta "id" with
    | Except.error e => Except.error e
    | Except.ok v =>
      match pyUnpack2 v with
      | Except.error e => Except.error e
      | Except.ok (_, q) => Except.ok q

/-- Identity record map, used as a concrete server model in witnesses. -/
def srvId : Question Nat → Question Nat := fun q => q

/-- A concrete queue-fetch collaborator for witnesses. -/
def exQueueFetch : String → String → String → List (String × PyVal) :=
  fun _ _ _ => [("id", PyVal.int 1)]

/-- A concrete question-fetch collaborator for witnesses. -/
def exQuestionFetch : String → String → List (String × PyVal) :=
  fun _ _ => [("id", PyVal.int 1)]

/-- A concrete non-empty record for witnesses. -/
def exRecord : List (String × PyVal) := [("id", PyVal.int 1)]

/-- A concrete queue-post collaborator for witnesses. -/
def exPostQueue : List (String × PyVal) → List (String × PyVal) := fun d => d

/-- A concrete server status response for witnesses. -/
def exStatusResp : StatusResp :=
  { judgments := some 7, complete := some 3, wanting := some 2, started := some 1 }

/-- A queue state whose status snapshot has already been fetched. -/
def exFetchedState : RabjQueueState :=
  { queue := [], threads := 1, statusFetched := true,
    statusCache := some (RabjQueue.status exStatusResp) }

/- ------------------------------------------------------------------ -/
/- Theorems                                                           -/
/- ------------------------------------------------------------------ -/

/-- Helper: a Bool known to be false is not true. -/
theorem bool_false_ne_true {b : Bool} (h : b = false) : ¬ (b = true) := by
  simp [h]

/-- Helper: overwriting one key leaves lookups of other keys unchanged. -/
theorem dictGet_dictSet_ne {α : Type} (d : List (String × α)) (k k2 : String) (v : α)
    (h : k2 ≠ k) : dictGet (dictSet d k2 v) k = dictGet d k := by
  induction d with
  | nil => simp [dictSet, dictGet, h]
  | cons kv rest ih =>
    by_cases hk : kv.1 = k2
    · have hk2 : ¬ kv.1 = k := fun hc => h (hk ▸ hc)
      simp [dictSet, hk, dictGet, h, hk2]
    · simp [dictSet, hk, dictGet, ih]

/-- Helper: updating with bindings that avoid a key leaves its lookup
unchanged. -/
theorem dictGet_dictUpdate_not_mem {α : Type} (m : List (String × α)) :
    ∀ (d : List (String × α)) (k : String),
      (∀ kv ∈ m, kv.1 ≠ k) →
      dictGet (dictUpdate d m) k = dictGet d k := by
  induction m with
  | nil => intro d k _; rfl
  | cons kv rest ih =>
    intro d k h
    have hstep : dictUpdate d (kv :: rest) = dictUpdate (dictSet d kv.1 kv.2) rest := rfl
    rw [hstep, ih _ _ (fun x hx => h x (List.mem_cons_of_mem _ hx))]
    exact dictGet_dictSet_ne _ _ _ _ (h kv (List.mem_cons_self _ _))

/-- C3: every `status` call issues a remote fetch without touching the
cache, maps the server fields judgments/complete/started by name and
`wanting` to `incomplete` (each defaulting to zero when absent), and derives
`questions` as complete plus incomplete. -/
theorem status_fields_spec (qstat : StatusResp) (st : RabjQueueState) :
    RabjQueue.statusCall qstat st = (RabjQueue.status qstat, st, true)
  ∧ (RabjQueue.status qstat).judgments = qstat.judgments.getD 0
  ∧ (RabjQueue.status qstat).complete = qstat.complete.getD 0
  ∧ (RabjQueue.status qstat).incomplete = qstat.wanting.getD 0
  ∧ (RabjQueue.status qstat).started = qstat.started.getD 0
  ∧ (RabjQueue.status qstat).questions
      = (RabjQueue.status qstat).complete + (RabjQueue.status qstat).incomplete := by
  exact ⟨rfl, rfl, rfl, rfl, rfl, rfl⟩

/-- C4: once the status snapshot has been fetched through `statusonce`, the
fetched flag is set; any further `statusonce` call (hence any of the five
count properties, which delegate to it) issues no remote fetch and leaves
the state unchanged; and `statusonce` right after `resetstatus` always
issues a fresh remote fetch and returns the fresh server status. -/
theorem status_cache_spec (qstat qstat2 : StatusResp) (st : RabjQueueState) :
    ((RabjQueue.statusonce qstat st).2.1).statusFetched = true
  ∧ (st.statusFetched = true →
      RabjQueue.statusonce qstat st = (st.statusCache, st, false))
  ∧ (RabjQueue.statusonce qstat2 ((RabjQueue.statusonce qstat st).2.1)
      = (((RabjQueue.statusonce qstat st).2.1).statusCache,
         (RabjQueue.statusonce qstat st).2.1, false))
  ∧ (RabjQueue.statusonce qstat (RabjQueue.resetstatus st)
      = (some (RabjQueue.status qstat),
         { queue := st.queue, threads := st.threads, statusFetched := true,
           statusCache := some (RabjQueue.status qstat) }, true))
  ∧ (RabjQueue.questionsProp qstat st
      = (((RabjQueue.statusonce qstat st).1).map SimpleStatus.questions,
         (RabjQueue.statusonce qstat st).2))
  ∧ (RabjQueue.completeProp qstat st
      = (((RabjQueue.statusonce qstat st).1).map SimpleStatus.complete,
         (RabjQueue.statusonce qstat st).2))
  ∧ (RabjQueue.incompleteProp qstat st
      = (((RabjQueue.statusonce qstat st).1).map SimpleStatus.incomplete,
         (RabjQueue.statusonce qstat st).2))
  ∧ (RabjQueue.startedProp qstat st
      = (((RabjQueue.statusonce qstat st).1).map SimpleStatus.started,
         (RabjQueue.statusonce qstat st).2))
  ∧ (RabjQueue.judgmentsProp qstat st
      = (((RabjQueue.statusonce qstat st).1).map SimpleStatus.judgments,
         (RabjQueue.statusonce qstat st).2)) := by
  refine ⟨?_, ?_, ?_, ?_, rfl, rfl, rfl, rfl, rfl⟩
  · cases hf : st.statusFetched <;> simp [RabjQueue.statusonce, hf]
  · intro hf; simp [RabjQueue.statusonce, hf]
  · cases hf : st.statusFetched <;> simp [RabjQueue.statusonce, hf]
  · simp [RabjQueue.statusonce, RabjQueue.resetstatus]

/-- C4 witness: on a state whose snapshot is already fetched, the accessor
returns the cached value without fetching or mutating. -/
theorem status_cache_spec_witness :
    exFetchedState.statusFetched = true
  ∧ RabjQueue.statusonce exStatusResp exFetchedState
      = (exFetchedState.statusCache, exFetchedState, false) :=
  ⟨rfl, (status_cache_spec exStatusResp exStatusResp exFetchedState).2.1 rfl⟩

/-- C5 counterexample: the code keeps the slash when normalizing, so a url
ending in the slash-store suffix does not have that whole suffix
stripped. -/
theorem normServerUrl_strip_counterexample :
    ¬ (normServerUrl (String.toList "http://h/rabj/store/")
        = String.toList "http://h") := by
  decide

/-- C5 amended: the normalizer strips only the last 11 (resp. 5) characters,
i.e. the store (resp. rabj) suffix without its leading slash, so the result
keeps a trailing slash; inputs ending in neither suffix are unchanged. -/
theorem normServerUrl_amended_spec (pre url : List Char) :
    normServerUrl (pre ++ String.toList "/rabj/store/") = pre ++ String.toList "/"
  ∧ normServerUrl (pre ++ String.toList "/rabj/") = pre ++ String.toList "/"
  ∧ (pyEndsWith url (String.toList "/rabj/store/") = false →
     pyEndsWith url (String.toList "/rabj/") = false →
     normServerUrl url = url) := by
  refine ⟨?_, ?_, ?_⟩
  · have hsfx : pyEndsWith (pre ++ String.toList "/rabj/store/")
        (String.toList "/rabj/store/") = true := by
      unfold pyEndsWith
      exact List.isSuffixOf_iff_suffix.mpr (List.suffix_append _ _)
    rw [normServerUrl, if_pos hsfx]
    unfold pySliceDropRight
    have hl : (pre ++ String.toList "/rabj/store/").length = pre.length + 12 := by
      simp
    rw [hl]
    have h11 : pre.length + 12 - 11 = pre.length + 1 := by omega
    rw [h11, List.take_append_eq_append_take, List.take_of_length_le (by omega)]
    congr 1
    have h1 : pre.length + 1 - pre.length = 1 := by omega
    rw [h1]
    rfl
  · have hs1 : pyEndsWith (pre ++ String.toList "/rabj/")
        (String.toList "/rabj/store/") = false := by
      unfold pyEndsWith
      apply Bool.eq_false_iff.mpr
      intro hcon
      have h1 : String.toList "/rabj/store/" <:+ pre ++ String.toList "/rabj/" :=
        List.isSuffixOf_iff_suffix.mp hcon
      have h2 : String.toList "/rabj/" <:+ pre ++ String.toList "/rabj/" :=
        List.suffix_append _ _
      rcases List.suffix_or_suffix_of_suffix h1 h2 with h | h
      · exact absurd h (by decide)
      · exact absurd h (by decide)
    have hs2 : pyEndsWith (pre ++ String.toList "/rabj/")
        (String.toList "/rabj/") = true := by
      unfold pyEndsWith
      exact List.isSuffixOf_iff_suffix.mpr (List.suffix_append _ _)
    rw [normServerUrl, if_neg (bool_false_ne_true hs1), if_pos hs2]
    unfold pySliceDropRight
    have hl : (pre ++ String.toList "/rabj/").length = pre.length + 6 := by
      simp
    rw [hl]
    have h5 : pre.length + 6 - 5 = pre.length + 1 := by omega
    rw [h5, List.take_append_eq_append_take, List.take_of_length_le (by omega)]
    congr 1
    have h1 : pre.length + 1 - pre.length = 1 := by omega
    rw [h1]
    rfl
  · intro h1 h2
    rw [normServerUrl, if_neg (bool_false_ne_true h1), if_neg (bool_false_ne_true h2)]

/-- C5 amended witness: a url ending in neither suffix is unchanged, and the
suffix cases evaluated concretely. -/
theorem normServerUrl_amended_spec_witness :
    pyEndsWith (String.toList "http://x") (String.toList "/rabj/store/") = false
  ∧ pyEndsWith (String.toList "http://x") (String.toList "/rabj/") = false
  ∧ normServerUrl (String.toList "http://x") = String.toList "http://x" :=
  ⟨by decide, by decide,
   (normServerUrl_amended_spec [] (String.toList "http://x")).2.2 (by decide) (by decide)⟩

/-- C9: with any non-None `question` argument, `getone` raises TypeError
before issuing any fetch, because `isinstance` is called with a list (not a
tuple) of types; the nominated question is never fetched. -/
theorem getone_question_arg_type_error (respMeta : PyVal) (fetch : String → PyVal)
    (q : GetoneArg) :
    RabjQueue.getone respMeta fetch (some q) = Except.error PyErr.typeError := by
  cases q <;> rfl

/-- C10: the stored worker count is clamped to 2 when more than one thread
is requested and to 1 otherwise; the `parallel` property is always false;
consequently `_get` always takes the sequential branch, returning the
results of the callables in input order. -/
theorem threads_parallel_get_spec {β : Type} (st : RabjQueueState)
    (parallel_fetch : List (Unit → β) → Nat → List β)
    (rabj_callables : List (Unit → β))
    (fetch : String → String → String → List (String × PyVal))
    (queue : Option (List (String × PyVal)))
    (server_url id access_key : Option String) (threads : Nat) :
    RabjQueue.parallel st = false
  ∧ RabjQueue._get st parallel_fetch rabj_callables
      = rabj_callables.map (fun rc => rc ())
  ∧ (∀ st2, RabjQueue.init fetch queue server_url id access_key threads = Except.ok st2 →
      st2.threads = if threads > 1 then 2 else 1) := by
  refine ⟨rfl, by simp [RabjQueue._get, RabjQueue.parallel], ?_⟩
  intro st2 h
  unfold RabjQueue.init at h
  split at h
  · split at h
    · cases h
      rfl
    · exact Except.noConfusion h
  · exact Except.noConfusion h

/-- C10 witness: constructing from a record with threads = 5 stores a worker
count of 2, and the sequential branch of a concrete fetch list. -/
theorem threads_parallel_get_spec_witness :
    RabjQueue._get exFetchedState (fun _ _ => []) [fun _ => (5 : Nat)] = [5]
  ∧ RabjQueueState.threads
      { queue := exRecord, threads := 2, statusFetched := false,
        statusCache := Option.none } = if 5 > 1 then 2 else 1 :=
  ⟨(threads_parallel_get_spec exFetchedState (fun _ _ => []) [fun _ => (5 : Nat)]
      exQueueFetch (some exRecord) Option.none Option.none Option.none 5).2.1,
   (threads_parallel_get_spec exFetchedState (fun _ _ => []) [fun _ => (5 : Nat)]
      exQueueFetch (some exRecord) Option.none Option.none Option.none 5).2.2
      { queue := exRecord, threads := 2, statusFetched := false,
        statusCache := Option.none } rfl⟩

/-- C8: the convenience fetches do not forward their `body` argument to
`getall` (the source omits it, so `getall` runs with its default), hence with
`body = false` they issue a different request than `getall` called with the
same four arguments and the fixed state. -/
theorem filtered_fetch_body_dropped :
    (RabjQueue.completed_questions ([] : List Nat) false false Option.none 5
       ≠ RabjQueue.getall ([] : List Nat) (some "complete") false false Option.none 5)
  ∧ (RabjQueue.incomplete_questions ([] : List Nat) false false Option.none 5
       ≠ RabjQueue.getall ([] : List Nat) (some "wanting") false false Option.none 5) := by
  constructor <;> decide

/-- C6: when `votes` does not coerce to an integer, `create_queue` raises
before any remote request (the post trace is empty); when it does coerce,
exactly one queue record is posted, carrying the integer-coerced votes value
(extra metadata cannot shadow it, as Python rejects duplicate keyword
arguments), and the server response comes back wrapped in a queue state. -/
theorem create_queue_validation_spec
    (postQueue : List (String × PyVal) → List (String × PyVal))
    (name owner votes access_key : PyVal) (tags : Option PyVal)
    (meta : List (String × PyVal)) (threads : Nat) :
    (∀ e, pyInt votes = Except.error e →
      RabjServer.create_queue postQueue name owner votes access_key tags meta threads
        = ([], Except.error e))
  ∧ (∀ n, pyInt votes = Except.ok n →
      RabjServer.create_queue postQueue name owner votes access_key tags meta threads
        = ([dictUpdate
              [("name", name), ("owner", owner), ("access_key", access_key),
               ("votes", PyVal.int n), ("tags", tags.getD (PyVal.list []))] meta],
           Except.ok
             { queue := postQueue (dictUpdate
                 [("name", name), ("owner", owner), ("access_key", access_key),
                  ("votes", PyVal.int n), ("tags", tags.getD (PyVal.list []))] meta),
               threads := clampThreads threads,
               statusFetched := false, statusCache := Option.none })
      ∧ ((∀ kv ∈ meta, kv.1 ≠ "votes") →
          dictGet (dictUpdate
              [("name", name), ("owner", owner), ("access_key", access_key),
               ("votes", PyVal.int n), ("tags", tags.getD (PyVal.list []))] meta)
            "votes" = some (PyVal.int n))) := by
  constructor
  · intro e he
    simp [RabjServer.create_queue, he]
  · intro n hn
    constructor
    · simp [RabjServer.create_queue, hn]
    · intro hmeta
      rw [dictGet_dictUpdate_not_mem meta _ _ hmeta]
      rfl

/-- C6 witness: an integer votes value is coerced and posted; the posted
record carries it and the result wraps the server response. -/
theorem create_queue_validation_spec_witness :
    pyInt (PyVal.int 3) = Except.ok 3
  ∧ RabjServer.create_queue exPostQueue (PyVal.str "n") (PyVal.str "o")
      (PyVal.int 3) PyVal.pynone Option.none [] 1
      = ([dictUpdate
            [("name", PyVal.str "n"), ("owner", PyVal.str "o"),
             ("access_key", PyVal.pynone), ("votes", PyVal.int 3),
             ("tags", (Option.none : Option PyVal).getD (PyVal.list []))] []],
         Except.ok
           { queue := exPostQueue (dictUpdate
               [("name", PyVal.str "n"), ("owner", PyVal.str "o"),
                ("access_key", PyVal.pynone), ("votes", PyVal.int 3),
                ("tags", (Option.none : Option PyVal).getD (PyVal.list []))] []),
             threads := clampThreads 1,
             statusFetched := false, statusCache := Option.none }) :=
  ⟨rfl,
   ((create_queue_validation_spec exPostQueue (PyVal.str "n") (PyVal.str "o")
       (PyVal.int 3) PyVal.pynone Option.none [] 1).2 3 rfl).1⟩

/-- C7: construction of a queue (resp. question) wrapper succeeds exactly
when one argument form is supplied — a (non-empty) record, xor the complete
server-reference form — and fails with an assertion error when both complete
forms or neither is given. -/
theorem init_exclusive_args_spec
    (fetch3 : String → String → String → List (String × PyVal))
    (fetch2 : String → String → List (String × PyVal))
    (queue question : Option (List (String × PyVal)))
    (server_url id access_key qid : Option String) (threads : Nat) :
    (∀ d, queue = some d → d.isEmpty = false) →
    (∀ d, question = some d → d.isEmpty = false) →
      isOkE (RabjQueue.init fetch3 queue server_url id access_key threads)
        = Bool.xor queue.isSome (server_url.isSome && id.isSome && access_key.isSome)
    ∧ isOkE (RabjQuestion.init fetch2 question server_url qid)
        = Bool.xor question.isSome (server_url.isSome && qid.isSome) := by
  intro hq hquestion
  constructor
  · rcases queue with _ | d
    · rcases server_url with _ | s <;> rcases id with _ | i <;> rcases access_key with _ | k <;>
        simp [RabjQueue.init, pyTruthyDict, isOkE]
    · have hd := hq d rfl
      rcases server_url with _ | s <;> rcases id with _ | i <;> rcases access_key with _ | k <;>
        simp [RabjQueue.init, pyTruthyDict, isOkE, hd]
  · rcases question with _ | d
    · rcases server_url with _ | s <;> rcases qid with _ | i <;>
        simp [RabjQuestion.init, pyTruthyDict, isOkE]
    · have hd := hquestion d rfl
      rcases server_url with _ | s <;> rcases qid with _ | i <;>
        simp [RabjQuestion.init, pyTruthyDict, isOkE, hd]

/-- C7 witness: with only a record supplied construction succeeds, matching
the xor of the two argument forms. -/
theorem init_exclusive_args_spec_witness :
    isOkE (RabjQueue.init exQueueFetch (some exRecord)
        Option.none Option.none Option.none 1)
      = Bool.xor (some exRecord).isSome
          ((Option.none : Option String).isSome
            && (Option.none : Option String).isSome
            && (Option.none : Option String).isSome)
  ∧ isOkE (RabjQuestion.init exQuestionFetch (some exRecord)
        Option.none Option.none)
      = Bool.xor (some exRecord).isSome
          ((Option.none : Option String).isSome
            && (Option.none : Option String).isSome) :=
  init_exclusive_args_spec exQueueFetch exQuestionFetch (some exRecord) (some exRecord)
    Option.none Option.none Option.none Option.none 1
    (fun d hd => by cases hd; rfl) (fun d hd => by cases hd; rfl)

/-- Helper: joining singleton `addone` results is mapping the record map
over the built questions. -/
theorem join_map_addone {α β : Type} (srv : Question α → β)
    (ts : List (α × α × List (String × α))) :
    (ts.map (fun t => RabjQueue.addone srv t.1 t.2.1 t.2.2)).join
      = (ts.map (fun t => mkQuestion t.1 t.2.1 t.2.2)).map srv := by
  induction ts with
  | nil => rfl
  | cons t ts ih =>
    have hstep : (List.map (fun t => RabjQueue.addone srv t.1 t.2.1 t.2.2) (t :: ts)).join
        = RabjQueue.addone srv t.1 t.2.1 t.2.2
            ++ (List.map (fun t => RabjQueue.addone srv t.1 t.2.1 t.2.2) ts).join := by
      simp
    rw [hstep, ih, List.map_cons, List.map_cons]
    rfl

/-- Helper: the loop invariant of `addall` relating accumulated records,
pending payload and posted batches to the input. -/
theorem addallGo_content {α β : Type} (srv : Question α → β) (P : Nat) :
    ∀ (ts : List (α × α × List (String × α))) (added : List β)
      (payload : List (Question α)) (posts : List (List (Question α))),
      (RabjQueue.addallGo srv P ts added payload posts).1
          ++ ((RabjQueue.addallGo srv P ts added payload posts).2.1).map srv
        = added ++ payload.map srv ++ (ts.map (fun t => mkQuestion t.1 t.2.1 t.2.2)).map srv
    ∧ (RabjQueue.addallGo srv P ts added payload posts).2.2.join
          ++ (RabjQueue.addallGo srv P ts added payload posts).2.1
        = posts.join ++ payload ++ ts.map (fun t => mkQuestion t.1 t.2.1 t.2.2) := by
  intro ts
  induction ts with
  | nil =>
    intro added payload posts
    simp [RabjQueue.addallGo]
  | cons t ts ih =>
    intro added payload posts
    simp only [RabjQueue.addallGo]
    by_cases hlen : (payload ++ [mkQuestion t.1 t.2.1 t.2.2]).length = P
    · rw [if_pos hlen]
      obtain ⟨ih1, ih2⟩ := ih (added ++ (payload ++ [mkQuestion t.1 t.2.1 t.2.2]).map srv)
        [] (posts ++ [payload ++ [mkQuestion t.1 t.2.1 t.2.2]])
      constructor
      · rw [ih1]
        simp [List.append_assoc]
      · rw [ih2]
        simp [List.append_assoc]
    · rw [if_neg hlen]
      obtain ⟨ih1, ih2⟩ := ih added (payload ++ [mkQuestion t.1 t.2.1 t.2.2]) posts
      constructor
      · rw [ih1]
        simp [List.append_assoc]
      · rw [ih2]
        simp [List.append_assoc]

/-- Helper: the loop posts one batch per `P` accumulated questions; the
pending payload holds the remainder. -/
theorem addallGo_count {α β : Type} (srv : Question α → β) (P : Nat) (hP : 0 < P) :
    ∀ (ts : List (α × α × List (String × α))) (added : List β)
      (payload : List (Question α)) (posts : List (List (Question α))),
      payload.length < P →
      ((RabjQueue.addallGo srv P ts added payload posts).2.1.length
         = (payload.length + ts.length) % P)
    ∧ ((RabjQueue.addallGo srv P ts added payload posts).2.2.length
         = posts.length + (payload.length + ts.length) / P) := by
  intro ts
  induction ts with
  | nil =>
    intro added payload posts hpl
    constructor
    · simp [RabjQueue.addallGo, Nat.mod_eq_of_lt hpl]
    · simp [RabjQueue.addallGo, Nat.div_eq_of_lt hpl]
  | cons t ts ih =>
    intro added payload posts hpl
    simp only [RabjQueue.addallGo]
    by_cases hlen : (payload ++ [mkQuestion t.1 t.2.1 t.2.2]).length = P
    · rw [if_pos hlen]
      have hp1 : payload.length + 1 = P := by simpa using hlen
      obtain ⟨ih1, ih2⟩ := ih (added ++ (payload ++ [mkQuestion t.1 t.2.1 t.2.2]).map srv)
        [] (posts ++ [payload ++ [mkQuestion t.1 t.2.1 t.2.2]]) (by simpa using hP)
      constructor
      · rw [ih1]
        have heq : payload.length + (ts.length + 1) = ts.length + P := by omega
        rw [List.length_cons, heq, Nat.add_mod_right]
        simp
      · rw [ih2]
        have heq : payload.length + (ts.length + 1) = ts.length + P := by omega
        rw [List.length_cons, heq, Nat.add_div_right _ hP]
        simp only [List.length_append, List.length_cons, List.length_nil, Nat.zero_add]
        ring
    · rw [if_neg hlen]
      have hp1 : payload.length + 1 < P := by
        have : (payload ++ [mkQuestion t.1 t.2.1 t.2.2]).length = payload.length + 1 := by simp
        omega
      obtain ⟨ih1, ih2⟩ := ih added (payload ++ [mkQuestion t.1 t.2.1 t.2.2]) posts
        (by simpa using hp1)
      constructor
      · rw [ih1]
        have heq : payload.length + 1 + ts.length = payload.length + (ts.length + 1) := by
          omega
        simp only [List.length_append, List.length_cons, List.length_nil, Nat.zero_add]
        rw [heq]
      · rw [ih2]
        have heq : payload.length + 1 + ts.length = payload.length + (ts.length + 1) := by
          omega
        simp only [List.length_append, List.length_cons, List.length_nil, Nat.zero_add]
        rw [heq]

/-- Helper: every batch posted by the loop has exactly `P` questions, so at
most `P`, given the incoming posted batches do. -/
theorem addallGo_sizes {α β : Type} (srv : Question α → β) (P : Nat) :
    ∀ (ts : List (α × α × List (String × α))) (added : List β)
      (payload : List (Question α)) (posts : List (List (Question α))),
      (∀ b ∈ posts, b.length ≤ P) →
      ∀ b ∈ (RabjQueue.addallGo srv P ts added payload posts).2.2, b.length ≤ P := by
  intro ts
  induction ts with
  | nil =>
    intro added payload posts h
    simpa [RabjQueue.addallGo] using h
  | cons t ts ih =>
    intro added payload posts h
    simp only [RabjQueue.addallGo]
    by_cases hlen : (payload ++ [mkQuestion t.1 t.2.1 t.2.2]).length = P
    · rw [if_pos hlen]
      apply ih
      intro b hb
      rcases List.mem_append.mp hb with hb | hb
      · exact h b hb
      · have hb2 : b = payload ++ [mkQuestion t.1 t.2.1 t.2.2] := by
          simpa using hb
        rw [hb2, hlen]
    · rw [if_neg hlen]
      exact ih _ _ _ h

/-- Helper: floor division plus a remainder indicator is ceiling
division. -/
theorem div_add_ite_eq_ceil (N P : Nat) (hP : 0 < P) :
    N / P + (if N % P = 0 then 0 else 1) = (N + P - 1) / P := by
  by_cases h0 : N % P = 0
  · rw [if_pos h0]
    have hN : N + P - 1 = P * (N / P) + (P - 1) := by
      have h : P * (N / P) + N % P = N := Nat.div_add_mod N P
      generalize hX : P * (N / P) = X at h ⊢
      omega
    rw [hN, Nat.mul_add_div hP, Nat.div_eq_of_lt (show P - 1 < P by omega)]
  · rw [if_neg h0]
    have hN : N + P - 1 = P * (N / P) + (N % P + P - 1) := by
      have h : P * (N / P) + N % P = N := Nat.div_add_mod N P
      generalize hX : P * (N / P) = X at h ⊢
      omega
    rw [hN, Nat.mul_add_div hP]
    have h1P : 1 * P ≤ N % P + P - 1 := by omega
    have h2P : N % P + P - 1 < (1 + 1) * P := by
      have hr : N % P < P := Nat.mod_lt _ hP
      omega
    rw [Nat.div_eq_of_lt_le h1P h2P]

/-- C1: for positive `pagesize`, `addall` posts exactly the ceiling of
N / pagesize batches, each of at most `pagesize` questions, whose
concatenation is the built questions in input order, and returns the
concatenation of the per-batch server records — identical to what the same
inputs would have produced through individual `addone` calls. -/
theorem addall_batches_spec {α β : Type} (srv : Question α → β)
    (ts : List (α × α × List (String × α))) (P : Nat) (hP : 0 < P) :
    (RabjQueue.addall srv ts P).2.length = (ts.length + P - 1) / P
  ∧ (∀ b ∈ (RabjQueue.addall srv ts P).2, b.length ≤ P)
  ∧ ((RabjQueue.addall srv ts P).2).join
      = ts.map (fun t => mkQuestion t.1 t.2.1 t.2.2)
  ∧ (RabjQueue.addall srv ts P).1
      = (ts.map (fun t => RabjQueue.addone srv t.1 t.2.1 t.2.2)).join := by
  obtain ⟨hc1, hc2⟩ := addallGo_content srv P ts [] [] []
  obtain ⟨hn1, hn2⟩ := addallGo_count srv P hP ts [] [] [] (by simpa using hP)
  have hsz := addallGo_sizes srv P ts [] [] [] (by intro b hb; simp at hb)
  rw [join_map_addone]
  rcases hG : RabjQueue.addallGo srv P ts [] [] [] with ⟨added, payload, posts⟩
  rw [hG] at hc1 hc2 hn1 hn2 hsz
  simp only [List.nil_append, List.map_nil, List.join_nil, List.length_nil,
    Nat.zero_add] at hc1 hc2 hn1 hn2 hsz
  have hceil := div_add_ite_eq_ceil ts.length P hP
  simp only [RabjQueue.addall, hG]
  by_cases h0 : payload.length = 0
  · rw [if_neg (by omega)]
    dsimp only
    have hpnil : payload = [] := List.length_eq_zero.mp h0
    subst hpnil
    simp only [List.map_nil, List.append_nil] at hc1 hc2
    have hmod : ts.length % P = 0 := by omega
    rw [if_pos hmod] at hceil
    exact ⟨by omega, hsz, hc2, hc1⟩
  · rw [if_pos h0]
    dsimp only
    have hmod : ¬ (ts.length % P = 0) := by omega
    rw [if_neg hmod] at hceil
    refine ⟨?_, ?_, ?_, ?_⟩
    · simp only [List.length_append, List.length_cons, List.length_nil]
      omega
    · intro b hb
      rcases List.mem_append.mp hb with hb | hb
      · exact hsz b hb
      · have hb2 : b = payload := by simpa using hb
        have hrem : ts.length % P < P := Nat.mod_lt _ hP
        rw [hb2]
        omega
    · have hja : (posts ++ [payload]).join = posts.join ++ payload := by
        simp
      rw [hja]
      exact hc2
    · exact hc1

/-- C1 witness: two questions with pagesize one are posted as two batches. -/
theorem addall_batches_spec_witness :
    0 < 1
  ∧ (RabjQueue.addall srvId
      [(1, 2, ([] : List (String × Nat))), (3, 4, [])] 1).2.length = 2 :=
  ⟨by decide, by
    have h := (addall_batches_spec srvId
      [(1, 2, ([] : List (String × Nat))), (3, 4, [])] 1 (by decide)).1
    simpa using h⟩

/-- Helper: the pagination loop, given adequate fuel and positive pagesize,
returns every record from the current offset on, and issues requests whose
offsets advance by the pagesize from the current offset. -/
theorem getallLoop_spec {α : Type} (server : List α) (state since : Option String)
    (judgments body : Bool) (P : Nat) (hP : 0 < P) :
    ∀ (fuel offset : Nat), server.length - offset < fuel →
      ((RabjQueue.getallLoop server state since judgments body P fuel offset).2
         = (server.drop offset).map RabjQuestionH.mk)
    ∧ ((RabjQueue.getallLoop server state since judgments body P fuel offset).1.map
          (fun r => r.params.offset)
         = (List.range
              ((RabjQueue.getallLoop server state since judgments body P fuel offset).1.length)).map
             (fun i => offset + i * P)) := by
  intro fuel
  induction fuel with
  | zero =>
    intro offset h
    exact absurd h (by omega)
  | succ fuel ih =>
    intro offset h
    simp only [RabjQueue.getallLoop]
    by_cases hpage : ((server.drop offset).take P).length < P
    · rw [if_pos hpage]
      constructor
      · have hlen : (server.drop offset).length < P := by
          rw [List.length_take] at hpage
          omega
        rw [List.take_of_length_le (Nat.le_of_lt hlen)]
      · have hr1 : List.range 1 = [0] := rfl
        simp [mkGetParams, hr1, Nat.zero_mul]
    · rw [if_neg hpage]
      have hlenP : P ≤ (server.drop offset).length := by
        rw [List.length_take] at hpage
        omega
      have hoff : server.length - (offset + P) < fuel := by
        have hd : (server.drop offset).length = server.length - offset := by
          simp
        omega
      obtain ⟨ih1, ih2⟩ := ih (offset + P) hoff
      constructor
      · dsimp only
        rw [ih1]
        have hdd : (server.drop offset).drop P = server.drop (offset + P) := by
          rw [List.drop_drop]
        have hsplit : server.drop offset
            = (server.drop offset).take P ++ (server.drop offset).drop P :=
          (List.take_append_drop _ _).symm
        rw [← hdd]
        conv_rhs => rw [hsplit]
        rw [List.map_append]
      · dsimp only
        simp only [List.map_cons, List.length_cons, List.range_succ_eq_map, List.map_map]
        rw [ih2]
        congr 1
        · simp [mkGetParams]
        · have hfun : ((fun i => offset + i * P) ∘ Nat.succ)
              = fun i => offset + P + i * P := by
            funext i
            simp only [Function.comp, Nat.succ_mul]
            omega
          rw [hfun]

/-- C2: for positive pagesize, `getall` returns exactly the server records
wrapped in page order — so its length equals the total the server reports —
and the issued requests carry offsets 0, P, 2P, and so on. -/
theorem getall_pagination_spec {α : Type} (server : List α) (state : Option String)
    (body judgments : Bool) (since : Option String) (P : Nat) (hP : 0 < P) :
    (RabjQueue.getall server state body judgments since P).2
        = server.map RabjQuestionH.mk
  ∧ ((RabjQueue.getall server state body judgments since P).2).length = server.length
  ∧ (RabjQueue.getall server state body judgments since P).1.map (fun r => r.params.offset)
      = (List.range ((RabjQueue.getall server state body judgments since P).1.length)).map
          (fun i => i * P) := by
  obtain ⟨h1, h2⟩ := getallLoop_spec server state since judgments body P hP
    (server.length + 1) 0 (by omega)
  refine ⟨?_, ?_, ?_⟩
  · simpa [RabjQueue.getall] using h1
  · have hq : (RabjQueue.getall server state body judgments since P).2
        = server.map RabjQuestionH.mk := by
      simpa [RabjQueue.getall] using h1
    rw [hq, List.length_map]
  · have hz : (fun i => 0 + i * P) = (fun i : Nat => i * P) := by
      funext i
      omega
    rw [hz] at h2
    simpa [RabjQueue.getall] using h2

/-- C2 witness: a three-record server with pagesize two is returned whole,
in order. -/
theorem getall_pagination_spec_witness :
    0 < 2
  ∧ (RabjQueue.getall [10, 20, 30] (some "complete") true false Option.none 2).2
      = [10, 20, 30].map RabjQuestionH.mk :=
  ⟨by decide,
   (getall_pagination_spec [10, 20, 30] (some "complete") true false Option.none 2
     (by decide)).1⟩
